import Mathlib

/-!
Verification of the broodminder-scan BLE advertisement decoder.

The definitions below are a shallow embedding of `main.go`:
 - bytes are modelled as `Nat`, multi-byte little-endian reads as explicit
   arithmetic;
 - Go `float64` arithmetic is modelled over `ℚ` (every quantity computed by
   the program is a small rational: raw integers scaled by 65536, 165, 100,
   10); `math.Round` (round half away from zero) is `goRound`;
 - the Go map literals (`legacyTempModels`, `weightModels`, ...) become
   boolean membership functions;
 - `parseAdvertisement`'s sequence of conditional field assignments becomes
   a chain of `Reading -> Reading` stages applied to a base record;
 - the mutex-guarded `tracker` becomes a pure state-passing structure.
-/

namespace BM

/-- Device model byte constants (from the `const` block in main.go). -/
def modelT : Nat := 41
def modelTH : Nat := 42
def modelW : Nat := 43
def modelT2 : Nat := 47
def modelW3 : Nat := 49
def modelSubHub : Nat := 52
def modelHub4G : Nat := 54
def modelTH2 : Nat := 56
def modelWPlus : Nat := 57
def modelDIY : Nat := 58
def modelHubWF : Nat := 60
def modelBeeDar : Nat := 63

/-- `legacyTempModels` map: models using the SHT-like temperature formula. -/
def legacyTempModels (m : Nat) : Bool :=
  m == modelT || m == modelTH || m == modelW

/-- `noHumidityModels` map: models that always report 0 for humidity. -/
def noHumidityModels (m : Nat) : Bool :=
  m == modelT || m == modelT2 || m == modelW3 || m == modelSubHub

/-- `weightModels` map: models that produce valid weight data. -/
def weightModels (m : Nat) : Bool :=
  m == modelW || m == modelWPlus || m == modelW3 || m == modelDIY

/-- `fourCellWeightModels` map: models with 4 load cells. -/
def fourCellWeightModels (m : Nat) : Bool :=
  m == modelW3 || m == modelDIY

/-- `swarmModels` map: models reporting swarm state. -/
def swarmModels (m : Nat) : Bool :=
  m == modelT2 || m == modelTH2

/-- `weightSentinels` map: raw weight values to ignore. -/
def weightSentinels (raw : Nat) : Bool :=
  raw == 0x7FFF || raw == 0x8005 || raw == 0xFFFF

/-- `modelName` from main.go: display string per model byte,
`?(n)` for unknown codes. -/
def modelName (b : Nat) : String :=
  if b == modelT then "T"
  else if b == modelTH then "TH"
  else if b == modelW then "W"
  else if b == modelT2 then "T2"
  else if b == modelW3 then "W3"
  else if b == modelSubHub then "SubHub"
  else if b == modelHub4G then "Hub4G"
  else if b == modelTH2 then "TH2"
  else if b == modelWPlus then "W+"
  else if b == modelDIY then "DIY"
  else if b == modelHubWF then "HubWF"
  else if b == modelBeeDar then "BeeDar"
  else "?(" ++ toString b ++ ")"

/-- Go `math.Round`: nearest integer, rounding half away from zero,
modelled over ℚ. -/
def goRoundZ (x : ℚ) : ℤ :=
  if x < 0 then -⌊-x + 1/2⌋ else ⌊x + 1/2⌋

/-- `math.Round(x*100)/100` — round to 2 decimal places. -/
def round2 (x : ℚ) : ℚ := (goRoundZ (x * 100) : ℚ) / 100

/-- `math.Round(x*10)/10` — round to 1 decimal place. -/
def round1 (x : ℚ) : ℚ := (goRoundZ (x * 10) : ℚ) / 10

/-- `parseTemperature` from main.go: raw 16-bit temperature to Celsius.
Float arithmetic modelled over ℚ. -/
def parseTemperature (model : Nat) (raw : Nat) : ℚ :=
  if raw == 0xFFFF then 0
  else if legacyTempModels model then (raw : ℚ) / 65536 * 165 - 40
  else ((raw : ℚ) - 5000) / 100

/-- `parseWeight` from main.go: raw 16-bit weight to kg, with validity flag. -/
def parseWeight (model : Nat) (raw : Nat) : ℚ × Bool :=
  if !weightModels model then (0, false)
  else if weightSentinels raw then (0, false)
  else (((raw : ℚ) - 32767) / 100, true)

/-- Byte access `data[i]` (used only under the source's length guards). -/
def byteAt (data : List Nat) (i : Nat) : Nat := data.getD i 0

/-- `binary.LittleEndian.Uint16(data[i:i+2])`. -/
def le16 (data : List Nat) (i : Nat) : Nat :=
  byteAt data i + 256 * byteAt data (i + 1)

/-- `fmt.Sprintf("%02d", n)` for a byte value. -/
def pad2 (n : Nat) : String :=
  if n < 10 then "0" ++ toString n else toString n

/-- Go `strings.ToUpper`, modelled character-wise (`Char.toUpper` agrees
with Go's uppercasing on the ASCII range, which is all that MAC address
strings contain). -/
def goToUpper (s : String) : String := String.mk (s.data.map Char.toUpper)

/-- The `Reading` struct from main.go (the `Timestamp` wall-clock field is
outside the model).  Unset fields keep Go zero values. -/
structure Reading where
  mac : String
  rssi : Int
  model : String
  modelByte : Nat
  firmwareMinor : Nat
  firmwareMajor : Nat
  firmware : String
  batteryPercent : Nat
  sampleCounter : Nat
  temperatureC : ℚ
  temperatureF : ℚ
  hasHumidity : Bool
  humidityPct : Nat
  hasWeight : Bool
  weightLeft : ℚ
  weightRight : ℚ
  weightTotal : ℚ
  has4Cell : Bool
  weightLeft2 : ℚ
  weightRight2 : ℚ
  hasRealtime : Bool
  realtimeTempC : ℚ
  realtimeTempF : ℚ
  realtimeWeight : ℚ
  hasSwarm : Bool
  swarmState : Nat
  deriving Repr, DecidableEq

/-- The parser's single error kind: payload shorter than 15 bytes,
carrying the observed length. -/
inductive ParseError where
  | payloadTooShort (got : Nat)
  deriving Repr, DecidableEq

/-- Fields assigned unconditionally at the top of `parseAdvertisement`
(model, firmware, battery clamp, sample counter, primary temperature). -/
def baseReading (mac : String) (rssi : Int) (data : List Nat) : Reading :=
  let modelByte := byteAt data 0
  let tempRaw := le16 data 7
  let tC := round2 (parseTemperature modelByte tempRaw)
  { mac := goToUpper mac
    rssi := rssi
    model := modelName modelByte
    modelByte := modelByte
    firmwareMinor := byteAt data 1
    firmwareMajor := byteAt data 2
    firmware := toString (byteAt data 2) ++ "." ++ pad2 (byteAt data 1)
    batteryPercent := min (byteAt data 4) 100
    sampleCounter := le16 data 5
    temperatureC := tC
    temperatureF := round1 (tC * 9 / 5 + 32)
    hasHumidity := false
    humidityPct := 0
    hasWeight := false
    weightLeft := 0
    weightRight := 0
    weightTotal := 0
    has4Cell := false
    weightLeft2 := 0
    weightRight2 := 0
    hasRealtime := false
    realtimeTempC := 0
    realtimeTempF := 0
    realtimeWeight := 0
    hasSwarm := false
    swarmState := 0 }

/-- Realtime-temperature block (`len(data) >= 10 && !legacyTempModels[...]`,
LSB at index 3, MSB at index 9; 0 and 0xFFFF mean "not present"). -/
def withRealtime (data : List Nat) (r : Reading) : Reading :=
  if 10 ≤ data.length ∧ ¬legacyTempModels r.modelByte then
    let rtRaw := byteAt data 3 + 256 * byteAt data 9
    if rtRaw ≠ 0xFFFF ∧ rtRaw ≠ 0 then
      let rtC := round2 (parseTemperature r.modelByte rtRaw)
      { r with hasRealtime := true
               realtimeTempC := rtC
               realtimeTempF := round1 (rtC * 9 / 5 + 32) }
    else r
  else r

/-- Weight left/right block (`len(data) >= 14`, raws at indices 10-13). -/
def withWeight (data : List Nat) (r : Reading) : Reading :=
  if 14 ≤ data.length then
    let wl := parseWeight r.modelByte (le16 data 10)
    let wr := parseWeight r.modelByte (le16 data 12)
    if wl.2 || wr.2 then
      let l := round2 wl.1
      let rt := round2 wr.1
      { r with hasWeight := true
               weightLeft := l
               weightRight := rt
               weightTotal := round2 (l + rt) }
    else r
  else r

/-- Humidity block (`len(data) >= 15`, byte at index 14; skipped for
no-humidity models; value accepted only in [0,100]). -/
def withHumidity (data : List Nat) (r : Reading) : Reading :=
  if 15 ≤ data.length then
    if ¬noHumidityModels r.modelByte then
      let hum := byteAt data 14
      if hum ≤ 100 then
        { r with hasHumidity := true, humidityPct := hum }
      else r
    else r
  else r

/-- Four-cell weight part of the extended block (indices 15-18). -/
def with4Cell (data : List Nat) (r : Reading) : Reading :=
  if fourCellWeightModels r.modelByte then
    let wl2 := parseWeight r.modelByte (le16 data 15)
    let wr2 := parseWeight r.modelByte (le16 data 17)
    if wl2.2 || wr2.2 then
      let l2 := round2 wl2.1
      let r2 := round2 wr2.1
      { r with has4Cell := true
               weightLeft2 := l2
               weightRight2 := r2
               weightTotal := round2 (r.weightLeft + r.weightRight + l2 + r2) }
    else r
  else r

/-- Swarm part of the extended block (state byte at index 19). -/
def withSwarm (data : List Nat) (r : Reading) : Reading :=
  if swarmModels r.modelByte ∧ 20 ≤ data.length then
    { r with hasSwarm := true, swarmState := byteAt data 19 }
  else r

/-- Extended fields block (`len(data) >= 19`): 4-cell weight then swarm. -/
def withExtended (data : List Nat) (r : Reading) : Reading :=
  if 19 ≤ data.length then withSwarm data (with4Cell data r) else r

/-- Realtime total weight block (`len(data) >= 21`, weight model with
current firmware; indices 19-20; note: not rounded in the source). -/
def withRealtimeWeight (data : List Nat) (r : Reading) : Reading :=
  if 21 ≤ data.length ∧ weightModels r.modelByte ∧
      ¬legacyTempModels r.modelByte then
    let rtWtRaw := le16 data 19
    if ¬weightSentinels rtWtRaw then
      { r with realtimeWeight := ((rtWtRaw : ℚ) - 32767) / 100 }
    else r
  else r

/-- The reading built by `parseAdvertisement` once the length check has
passed: the base fields followed by the conditional blocks, in source
order. -/
def parseBuild (mac : String) (rssi : Int) (data : List Nat) : Reading :=
  withRealtimeWeight data (withExtended data (withHumidity data
    (withWeight data (withRealtime data (baseReading mac rssi data)))))

/-- `parseAdvertisement` from main.go. -/
def parseAdvertisement (mac : String) (rssi : Int) (data : List Nat) :
    Except ParseError Reading :=
  if data.length < 15 then .error (.payloadTooShort data.length)
  else .ok (parseBuild mac rssi data)

/-- The dedup `tracker` state: MAC -> last sample counter, and the set of
MACs already discovered (the mutex is concurrency plumbing, not logic). -/
structure Tracker where
  seen : List (String × Nat)
  firstSee : List String
  deriving Repr, DecidableEq

/-- `newTracker`. -/
def newTracker : Tracker := ⟨[], []⟩

/-- `tracker.isNew`: true iff the (MAC, counter) pair is novel; records the
counter when returning true, leaves state untouched when returning false. -/
def Tracker.isNew (t : Tracker) (mac : String) (counter : Nat) :
    Bool × Tracker :=
  match t.seen.lookup mac with
  | some last =>
      if last = counter then (false, t)
      else (true, ⟨(mac, counter) :: t.seen, t.firstSee⟩)
  | none => (true, ⟨(mac, counter) :: t.seen, t.firstSee⟩)

/-- `tracker.isFirstDiscovery`: true the first time a MAC is seen. -/
def Tracker.isFirstDiscovery (t : Tracker) (mac : String) : Bool × Tracker :=
  if mac ∈ t.firstSee then (false, t)
  else (true, ⟨t.seen, mac :: t.firstSee⟩)

/-- One tracker operation, as invoked from the scan callback. -/
inductive Op where
  | isNewOp (mac : String) (counter : Nat)
  | firstDisc (mac : String)
  deriving Repr, DecidableEq

/-- Execute one tracker operation. -/
def stepOp (t : Tracker) : Op → Bool × Tracker
  | .isNewOp m c => t.isNew m c
  | .firstDisc m => t.isFirstDiscovery m

/-- Whether an operation is an `isFirstDiscovery` call for `mac`. -/
def isDiscOf (mac : String) : Op → Bool
  | .firstDisc m => m = mac
  | _ => false

/-- Number of `isFirstDiscovery` calls for `mac` in the trace `ops` (run
from state `t`) that returned `true`. -/
def discTrueCount (mac : String) : Tracker → List Op → Nat
  | _, [] => 0
  | t, op :: ops =>
      (if isDiscOf mac op ∧ (stepOp t op).1 then 1 else 0) +
        discTrueCount mac (stepOp t op).2 ops

/-- Whether the trace contains an `isFirstDiscovery` call for `mac`. -/
def mentionsDisc (mac : String) (ops : List Op) : Bool :=
  ops.any (isDiscOf mac)

/-- The "every stored value has already been rounded" invariant of a
`Reading`: Celsius and kg fields are fixed points of 2-decimal rounding,
Fahrenheit fields of 1-decimal rounding. -/
def rounded (r : Reading) : Prop :=
  round2 r.temperatureC = r.temperatureC ∧
  round1 r.temperatureF = r.temperatureF ∧
  round2 r.weightLeft = r.weightLeft ∧
  round2 r.weightRight = r.weightRight ∧
  round2 r.weightTotal = r.weightTotal ∧
  round2 r.weightLeft2 = r.weightLeft2 ∧
  round2 r.weightRight2 = r.weightRight2 ∧
  round2 r.realtimeTempC = r.realtimeTempC ∧
  round1 r.realtimeTempF = r.realtimeTempF ∧
  round2 r.realtimeWeight = r.realtimeWeight

/-- Modelled from the spec: an uppercase hexadecimal digit (`0`-`9`,
`A`-`F`), by code point. -/
def isUpperHexDigit (c : Char) : Bool :=
  (48 ≤ c.toNat ∧ c.toNat ≤ 57) ∨ (65 ≤ c.toNat ∧ c.toNat ≤ 70)

/-- Modelled from the spec: a hexadecimal digit in either casing. -/
def isHexDigitCI (c : Char) : Bool :=
  (48 ≤ c.toNat ∧ c.toNat ≤ 57) ∨ (65 ≤ c.toNat ∧ c.toNat ≤ 70) ∨
  (97 ≤ c.toNat ∧ c.toNat ≤ 102)

/-- Modelled from the spec: the character list of a canonical uppercase
colon-separated octet string (`AA:BB:...`). -/
def octetsU : List Char → Bool
  | [a, b] => isUpperHexDigit a && isUpperHexDigit b
  | a :: b :: sep :: rest =>
      isUpperHexDigit a && isUpperHexDigit b && (sep == ':') && octetsU rest
  | _ => false

/-- Modelled from the spec: the character list of a colon-separated octet
string in any casing. -/
def octetsCI : List Char → Bool
  | [a, b] => isHexDigitCI a && isHexDigitCI b
  | a :: b :: sep :: rest =>
      isHexDigitCI a && isHexDigitCI b && (sep == ':') && octetsCI rest
  | _ => false

/-- The pipeline tail from the weight block on: `parseBuild mac rssi data`
is definitionally `parseTail data (withRealtime data (baseReading mac rssi
data))`. -/
def parseTail (data : List Nat) (r : Reading) : Reading :=
  withRealtimeWeight data (withExtended data (withHumidity data
    (withWeight data r)))

/-! ### Rounding helper lemmas -/

theorem floor_one_half : ⌊(1 : ℚ)/2⌋ = 0 := by
  rw [Int.floor_eq_zero_iff]
  constructor <;> norm_num

theorem goRoundZ_intCast (k : ℤ) : goRoundZ (k : ℚ) = k := by
  unfold goRoundZ
  split
  · have h : -(k : ℚ) + 1/2 = (1:ℚ)/2 + ((-k : ℤ) : ℚ) := by
      rw [Int.cast_neg]; ring
    rw [h, Int.floor_add_int, floor_one_half]; ring
  · have h : (k : ℚ) + 1/2 = (1:ℚ)/2 + ((k : ℤ) : ℚ) := by ring
    rw [h, Int.floor_add_int, floor_one_half]; ring

theorem round2_int_div (k : ℤ) : round2 ((k : ℚ)/100) = (k : ℚ)/100 := by
  unfold round2
  have h : ((k : ℚ)/100) * 100 = (k : ℚ) := by field_simp
  rw [h, goRoundZ_intCast]

theorem round1_int_div (k : ℤ) : round1 ((k : ℚ)/10) = (k : ℚ)/10 := by
  unfold round1
  have h : ((k : ℚ)/10) * 10 = (k : ℚ) := by field_simp
  rw [h, goRoundZ_intCast]

theorem round2_idem (x : ℚ) : round2 (round2 x) = round2 x :=
  round2_int_div (goRoundZ (x * 100))

theorem round1_idem (x : ℚ) : round1 (round1 x) = round1 x :=
  round1_int_div (goRoundZ (x * 10))

theorem round2_zero : round2 0 = 0 := by
  simpa using round2_int_div 0

theorem round1_zero : round1 0 = 0 := by
  simpa using round1_int_div 0

/-- `(n - 32767)/100` (the unrounded realtime-weight expression) is already
a fixed point of 2-decimal rounding. -/
theorem round2_sub_div (n : Nat) :
    round2 (((n : ℚ) - 32767)/100) = ((n : ℚ) - 32767)/100 := by
  have h : ((n : ℚ) - 32767)/100 = (((n : ℤ) - 32767 : ℤ) : ℚ)/100 := by
    push_cast; ring
  rw [h, round2_int_div]

/-! ### Uppercasing preserves the colon-separated octet form -/

theorem charOfNat_toNat {n : Nat} (h : n.isValidChar) :
    (Char.ofNat n).toNat = n := by
  unfold Char.ofNat
  rw [dif_pos h]
  unfold Char.ofNatAux Char.toNat
  simp [UInt32.toNat, UInt32.ofNatCore]

theorem toUpper_toNat_lower (c : Char) (h1 : 97 ≤ c.toNat)
    (h2 : c.toNat ≤ 122) : (Char.toUpper c).toNat = c.toNat - 32 := by
  unfold Char.toUpper
  simp only []
  rw [if_pos ⟨h1, h2⟩]
  exact charOfNat_toNat (by unfold Nat.isValidChar; left; omega)

theorem toUpper_eq_self (c : Char)
    (h : ¬(97 ≤ c.toNat ∧ c.toNat ≤ 122)) : Char.toUpper c = c := by
  unfold Char.toUpper
  simp only []
  rw [if_neg h]

theorem isHexCI_toUpper (c : Char) (h : isHexDigitCI c = true) :
    isUpperHexDigit (Char.toUpper c) = true := by
  simp only [isHexDigitCI, decide_eq_true_eq] at h
  rcases h with h | h | h
  · rw [toUpper_eq_self c (by omega)]
    simp only [isUpperHexDigit, decide_eq_true_eq]
    omega
  · rw [toUpper_eq_self c (by omega)]
    simp only [isUpperHexDigit, decide_eq_true_eq]
    omega
  · have ht := toUpper_toNat_lower c (by omega) (by omega)
    simp only [isUpperHexDigit, decide_eq_true_eq, ht]
    omega

theorem toUpper_colon (c : Char) (h : (c == ':') = true) :
    Char.toUpper c = ':' := by
  have hc : c = ':' := beq_iff_eq.mp h
  subst hc
  decide

theorem octetsU_map (l : List Char) (h : octetsCI l = true) :
    octetsU (l.map Char.toUpper) = true := by
  induction l using octetsCI.induct with
  | case1 a b =>
    simp only [octetsCI, Bool.and_eq_true] at h
    simp only [List.map, octetsU, Bool.and_eq_true]
    exact ⟨isHexCI_toUpper a h.1, isHexCI_toUpper b h.2⟩
  | case2 a b sep rest ih =>
    simp only [octetsCI, Bool.and_eq_true] at h
    obtain ⟨⟨⟨ha, hb⟩, hsep⟩, hrest⟩ := h
    simp only [List.map]
    rw [toUpper_colon sep hsep]
    cases rest with
    | nil =>
      simp [octetsCI] at hrest
    | cons x xs =>
      have hmap := ih hrest
      simp only [octetsU, Bool.and_eq_true, List.map] at hmap ⊢
      exact ⟨⟨⟨isHexCI_toUpper a ha, isHexCI_toUpper b hb⟩, rfl⟩, hmap⟩
  | case3 t h1 h2 =>
    exfalso
    match t, h with
    | [], h => exact Bool.noConfusion h
    | [a], h => exact Bool.noConfusion h
    | [a, b], h => exact h1 a b rfl
    | a :: b :: sep :: rest, h => exact h2 a b sep rest rfl

/-! ### Stage shape lemmas: each block only writes its own fields -/

theorem withRealtime_shape (data : List Nat) (r : Reading) :
    ∃ b c f, withRealtime data r =
      { r with hasRealtime := b, realtimeTempC := c, realtimeTempF := f } := by
  unfold withRealtime
  simp only []
  split_ifs <;> exact ⟨_, _, _, rfl⟩

theorem withWeight_shape (data : List Nat) (r : Reading) :
    ∃ b l rr tot, withWeight data r =
      { r with hasWeight := b, weightLeft := l, weightRight := rr,
               weightTotal := tot } := by
  unfold withWeight
  simp only []
  split_ifs <;> exact ⟨_, _, _, _, rfl⟩

theorem withHumidity_shape (data : List Nat) (r : Reading) :
    ∃ b p, withHumidity data r =
      { r with hasHumidity := b, humidityPct := p } := by
  unfold withHumidity
  simp only []
  split_ifs <;> exact ⟨_, _, rfl⟩

theorem with4Cell_shape (data : List Nat) (r : Reading) :
    ∃ b l2 r2 tot, with4Cell data r =
      { r with has4Cell := b, weightLeft2 := l2, weightRight2 := r2,
               weightTotal := tot } := by
  unfold with4Cell
  simp only []
  split_ifs <;> exact ⟨_, _, _, _, rfl⟩

theorem withSwarm_shape (data : List Nat) (r : Reading) :
    ∃ b s, withSwarm data r = { r with hasSwarm := b, swarmState := s } := by
  unfold withSwarm
  split_ifs <;> exact ⟨_, _, rfl⟩

theorem withExtended_shape (data : List Nat) (r : Reading) :
    ∃ b4 l2 r2 tot bs s, withExtended data r =
      { r with has4Cell := b4, weightLeft2 := l2, weightRight2 := r2,
               weightTotal := tot, hasSwarm := bs, swarmState := s } := by
  unfold withExtended
  split_ifs
  · obtain ⟨b4, l2, r2, tot, h4⟩ := with4Cell_shape data r
    obtain ⟨bs, s, hs⟩ := withSwarm_shape data (with4Cell data r)
    rw [hs, h4]
    exact ⟨b4, l2, r2, tot, bs, s, rfl⟩
  · exact ⟨r.has4Cell, r.weightLeft2, r.weightRight2, r.weightTotal,
           r.hasSwarm, r.swarmState, rfl⟩

theorem withRealtimeWeight_shape (data : List Nat) (r : Reading) :
    ∃ w, withRealtimeWeight data r = { r with realtimeWeight := w } := by
  unfold withRealtimeWeight
  simp only []
  split_ifs <;> exact ⟨_, rfl⟩

/-! ### Weight capability lemmas -/

theorem parseWeight_nonweight (m raw : Nat) (h : weightModels m = false) :
    parseWeight m raw = (0, false) := by
  simp [parseWeight, h]

theorem parseWeight_valid_model (m raw : Nat)
    (h2 : (parseWeight m raw).2 = true) : weightModels m = true := by
  by_cases hm : weightModels m = true
  · exact hm
  · have hf : weightModels m = false := by simpa using hm
    rw [parseWeight_nonweight m raw hf] at h2
    exact Bool.noConfusion h2

theorem fourCell_imp_weight (m : Nat)
    (h : fourCellWeightModels m = true) : weightModels m = true := by
  simp only [fourCellWeightModels, Bool.or_eq_true, beq_iff_eq,
    modelW3, modelDIY] at h
  rcases h with h | h <;> subst h <;> decide

theorem withWeight_id (data : List Nat) (r : Reading)
    (hw : weightModels r.modelByte = false) : withWeight data r = r := by
  unfold withWeight
  simp only []
  rw [parseWeight_nonweight _ _ hw, parseWeight_nonweight _ _ hw]
  simp

theorem with4Cell_id (data : List Nat) (r : Reading)
    (h4 : fourCellWeightModels r.modelByte = false) :
    with4Cell data r = r := by
  unfold with4Cell
  rw [if_neg (by simp [h4])]

theorem withRealtimeWeight_id (data : List Nat) (r : Reading)
    (hw : weightModels r.modelByte = false) :
    withRealtimeWeight data r = r := by
  unfold withRealtimeWeight
  rw [if_neg]
  rintro ⟨-, hw', -⟩
  rw [hw] at hw'
  exact Bool.noConfusion hw'

/-- `withWeight` either leaves the reading untouched or marks weight
present — and it can only do the latter on a weight-capable model. -/
theorem withWeight_cases (data : List Nat) (r : Reading) :
    withWeight data r = r ∨
    ((withWeight data r).hasWeight = true ∧
     weightModels r.modelByte = true) := by
  unfold withWeight
  simp only []
  split_ifs with h14 hv
  · right
    refine ⟨rfl, ?_⟩
    have hv' := hv
    simp only [Bool.or_eq_true] at hv'
    rcases hv' with h | h
    · exact parseWeight_valid_model _ _ h
    · exact parseWeight_valid_model _ _ h
  · left; rfl
  · left; rfl

/-- The extended block either leaves the 4-cell fields untouched or marks
them present — the latter only on a four-cell model. -/
theorem withExtended_cases (data : List Nat) (r : Reading) :
    ((withExtended data r).has4Cell = r.has4Cell ∧
     (withExtended data r).weightLeft2 = r.weightLeft2 ∧
     (withExtended data r).weightRight2 = r.weightRight2) ∨
    ((withExtended data r).has4Cell = true ∧
     fourCellWeightModels r.modelByte = true) := by
  unfold withExtended
  split_ifs with h19
  · obtain ⟨bs, ss, hs⟩ := withSwarm_shape data (with4Cell data r)
    rw [hs]
    unfold with4Cell
    simp only []
    split_ifs with h4 hv
    · right; exact ⟨rfl, h4⟩
    · left; exact ⟨rfl, rfl, rfl⟩
    · left; exact ⟨rfl, rfl, rfl⟩
  · left; exact ⟨rfl, rfl, rfl⟩

theorem withRealtimeWeight_preserves (data : List Nat) (X : Reading) :
    (withRealtimeWeight data X).hasWeight = X.hasWeight ∧
    (withRealtimeWeight data X).has4Cell = X.has4Cell ∧
    (withRealtimeWeight data X).weightLeft = X.weightLeft ∧
    (withRealtimeWeight data X).weightRight = X.weightRight ∧
    (withRealtimeWeight data X).weightLeft2 = X.weightLeft2 ∧
    (withRealtimeWeight data X).weightRight2 = X.weightRight2 := by
  obtain ⟨w, hEq⟩ := withRealtimeWeight_shape data X
  rw [hEq]
  exact ⟨rfl, rfl, rfl, rfl, rfl, rfl⟩

theorem withExtended_preserves (data : List Nat) (X : Reading) :
    (withExtended data X).hasWeight = X.hasWeight ∧
    (withExtended data X).weightLeft = X.weightLeft ∧
    (withExtended data X).weightRight = X.weightRight := by
  obtain ⟨b4, l4, r4, t4, b5, s5, hEq⟩ := withExtended_shape data X
  rw [hEq]
  exact ⟨rfl, rfl, rfl⟩

theorem withHumidity_preserves (data : List Nat) (X : Reading) :
    (withHumidity data X).hasWeight = X.hasWeight ∧
    (withHumidity data X).has4Cell = X.has4Cell ∧
    (withHumidity data X).weightLeft = X.weightLeft ∧
    (withHumidity data X).weightRight = X.weightRight ∧
    (withHumidity data X).weightLeft2 = X.weightLeft2 ∧
    (withHumidity data X).weightRight2 = X.weightRight2 ∧
    (withHumidity data X).modelByte = X.modelByte := by
  obtain ⟨b, p, hEq⟩ := withHumidity_shape data X
  rw [hEq]
  exact ⟨rfl, rfl, rfl, rfl, rfl, rfl, rfl⟩

theorem withWeight_preserves (data : List Nat) (X : Reading) :
    (withWeight data X).modelByte = X.modelByte ∧
    (withWeight data X).has4Cell = X.has4Cell ∧
    (withWeight data X).weightLeft2 = X.weightLeft2 ∧
    (withWeight data X).weightRight2 = X.weightRight2 := by
  obtain ⟨b, l, rr, t, hEq⟩ := withWeight_shape data X
  rw [hEq]
  exact ⟨rfl, rfl, rfl, rfl⟩

/-- On a reading whose model has neither weight nor four-cell capability,
the humidity/extended/realtime-weight tail only touches humidity and
swarm fields. -/
theorem tail_id_nonweight (data : List Nat) (X : Reading)
    (hw : weightModels X.modelByte = false)
    (h4f : fourCellWeightModels X.modelByte = false) :
    ∃ b p bs ss,
      withRealtimeWeight data (withExtended data (withHumidity data X)) =
        { X with hasHumidity := b, humidityPct := p,
                 hasSwarm := bs, swarmState := ss } := by
  have hmbH : (withHumidity data X).modelByte = X.modelByte :=
    (withHumidity_preserves data X).2.2.2.2.2.2
  obtain ⟨b3, p3, h3⟩ := withHumidity_shape data X
  have hExt : ∃ bs ss, withExtended data (withHumidity data X) =
      { withHumidity data X with hasSwarm := bs, swarmState := ss } := by
    unfold withExtended
    split_ifs with h19
    · have h4id : with4Cell data (withHumidity data X) =
          withHumidity data X :=
        with4Cell_id data _ (by rw [hmbH]; exact h4f)
      rw [h4id]
      exact withSwarm_shape data (withHumidity data X)
    · exact ⟨(withHumidity data X).hasSwarm,
             (withHumidity data X).swarmState, rfl⟩
  obtain ⟨bs, ss, hExt⟩ := hExt
  have hmbE : (withExtended data (withHumidity data X)).modelByte =
      X.modelByte := by
    rw [hExt]
    exact hmbH
  have hRWid : withRealtimeWeight data
      (withExtended data (withHumidity data X)) =
      withExtended data (withHumidity data X) :=
    withRealtimeWeight_id data _ (by rw [hmbE]; exact hw)
  rw [hRWid, hExt, h3]
  exact ⟨b3, p3, bs, ss, rfl⟩

/-! ### The rounded invariant holds at every construction step -/

theorem rounded_base (mac : String) (rssi : Int) (data : List Nat) :
    rounded (baseReading mac rssi data) :=
  ⟨round2_idem _, round1_idem _, round2_zero, round2_zero, round2_zero,
   round2_zero, round2_zero, round2_zero, round1_zero, round2_zero⟩

theorem rounded_withRealtime (data : List Nat) (r : Reading)
    (h : rounded r) : rounded (withRealtime data r) := by
  unfold withRealtime
  simp only []
  split_ifs
  · obtain ⟨a1, a2, a3, a4, a5, a6, a7, _, _, a10⟩ := h
    exact ⟨a1, a2, a3, a4, a5, a6, a7, round2_idem _, round1_idem _, a10⟩
  · exact h
  · exact h

theorem rounded_withWeight (data : List Nat) (r : Reading)
    (h : rounded r) : rounded (withWeight data r) := by
  unfold withWeight
  simp only []
  split_ifs
  · obtain ⟨a1, a2, _, _, _, a6, a7, a8, a9, a10⟩ := h
    exact ⟨a1, a2, round2_idem _, round2_idem _, round2_idem _,
           a6, a7, a8, a9, a10⟩
  · exact h
  · exact h

theorem rounded_withHumidity (data : List Nat) (r : Reading)
    (h : rounded r) : rounded (withHumidity data r) := by
  unfold withHumidity
  simp only []
  split_ifs <;> exact h

theorem rounded_with4Cell (data : List Nat) (r : Reading)
    (h : rounded r) : rounded (with4Cell data r) := by
  unfold with4Cell
  simp only []
  split_ifs
  · obtain ⟨a1, a2, a3, a4, _, _, _, a8, a9, a10⟩ := h
    exact ⟨a1, a2, a3, a4, round2_idem _, round2_idem _, round2_idem _,
           a8, a9, a10⟩
  · exact h
  · exact h

theorem rounded_withSwarm (data : List Nat) (r : Reading)
    (h : rounded r) : rounded (withSwarm data r) := by
  unfold withSwarm
  split_ifs <;> exact h

theorem rounded_withExtended (data : List Nat) (r : Reading)
    (h : rounded r) : rounded (withExtended data r) := by
  unfold withExtended
  split_ifs
  · exact rounded_withSwarm _ _ (rounded_with4Cell _ _ h)
  · exact h

theorem rounded_withRealtimeWeight (data : List Nat) (r : Reading)
    (h : rounded r) : rounded (withRealtimeWeight data r) := by
  unfold withRealtimeWeight
  simp only []
  split_ifs <;>
    first
      | exact h
      | (obtain ⟨a1, a2, a3, a4, a5, a6, a7, a8, a9, _⟩ := h
         exact ⟨a1, a2, a3, a4, a5, a6, a7, a8, a9, round2_sub_div _⟩)

theorem rounded_parseBuild (mac : String) (rssi : Int) (data : List Nat) :
    rounded (parseBuild mac rssi data) :=
  rounded_withRealtimeWeight _ _ (rounded_withExtended _ _
    (rounded_withHumidity _ _ (rounded_withWeight _ _
      (rounded_withRealtime _ _ (rounded_base mac rssi data)))))

/-! ### Projections of the built reading -/

/-- The unconditionally-assigned fields survive every later block. -/
theorem parseBuild_fixed_fields (mac : String) (rssi : Int)
    (data : List Nat) :
    (parseBuild mac rssi data).mac = goToUpper mac ∧
    (parseBuild mac rssi data).modelByte = byteAt data 0 ∧
    (parseBuild mac rssi data).model = modelName (byteAt data 0) ∧
    (parseBuild mac rssi data).batteryPercent = min (byteAt data 4) 100 ∧
    (parseBuild mac rssi data).sampleCounter = le16 data 5 ∧
    (parseBuild mac rssi data).temperatureC =
      round2 (parseTemperature (byteAt data 0) (le16 data 7)) := by
  unfold parseBuild
  obtain ⟨b1, c1, f1, h1⟩ := withRealtime_shape data (baseReading mac rssi data)
  rw [h1]
  obtain ⟨b2, l2, r2, t2, h2⟩ := withWeight_shape data _
  rw [h2]
  obtain ⟨b3, p3, h3⟩ := withHumidity_shape data _
  rw [h3]
  obtain ⟨b4, l4, r4, t4, b5, s5, h4⟩ := withExtended_shape data _
  rw [h4]
  obtain ⟨w6, h6⟩ := withRealtimeWeight_shape data _
  rw [h6]
  exact ⟨rfl, rfl, rfl, rfl, rfl, rfl⟩

/-- What the humidity block does, as a function of the model capability
and the raw byte at index 14. -/
theorem withHumidity_char (data : List Nat) (r : Reading)
    (h15 : 15 ≤ data.length) :
    (noHumidityModels r.modelByte = true → withHumidity data r = r) ∧
    (noHumidityModels r.modelByte = false → byteAt data 14 ≤ 100 →
       (withHumidity data r).hasHumidity = true ∧
       (withHumidity data r).humidityPct = byteAt data 14) ∧
    (noHumidityModels r.modelByte = false → 100 < byteAt data 14 →
       withHumidity data r = r) := by
  refine ⟨?_, ?_, ?_⟩
  · intro hnh
    unfold withHumidity
    rw [if_pos h15, if_neg (by simp [hnh])]
  · intro hnh hle
    unfold withHumidity
    rw [if_pos h15, if_pos (by simp [hnh])]
    simp only []
    rw [if_pos hle]
    exact ⟨rfl, rfl⟩
  · intro hnh hgt
    unfold withHumidity
    rw [if_pos h15, if_pos (by simp [hnh])]
    simp only []
    rw [if_neg (by omega)]

/-! ### Claim theorems -/

/-- C1: `parseTemperature` is total over model byte and raw values; raw
`0xFFFF` yields 0 for every model; for the legacy models 41, 42, 43 it
computes `(raw / 65536) * 165 - 40`; for every other model byte it computes
`(raw - 5000) / 100` exactly, for every raw in [0, 65534]. -/
theorem parseTemperature_spec (model raw : Nat) :
    parseTemperature model 0xFFFF = 0 ∧
    (raw ≠ 0xFFFF → (model = 41 ∨ model = 42 ∨ model = 43) →
      parseTemperature model raw = (raw : ℚ) / 65536 * 165 - 40) ∧
    (raw ≤ 65534 → model ≠ 41 → model ≠ 42 → model ≠ 43 →
      parseTemperature model raw = ((raw : ℚ) - 5000) / 100) := by
  refine ⟨by simp [parseTemperature], ?_, ?_⟩
  · intro hraw hm
    have hleg : legacyTempModels model = true := by
      rcases hm with h | h | h <;>
        simp [legacyTempModels, h, modelT, modelTH, modelW]
    simp [parseTemperature, hraw, hleg]
  · intro hraw h1 h2 h3
    have hleg : legacyTempModels model = false := by
      simp [legacyTempModels, modelT, modelTH, modelW, h1, h2, h3]
    have hne : raw ≠ 0xFFFF := by omega
    simp [parseTemperature, hne, hleg]

/-- Witness for C1 at concrete inputs (legacy model 41, current model 47). -/
theorem parseTemperature_spec_witness :
    (5000 : Nat) ≠ 0xFFFF ∧
    parseTemperature 41 5000 = (5000 : ℚ) / 65536 * 165 - 40 ∧
    (6000 : Nat) ≤ 65534 ∧
    parseTemperature 47 6000 = ((6000 : ℚ) - 5000) / 100 :=
  ⟨by decide,
   (parseTemperature_spec 41 5000).2.1 (by decide) (Or.inl rfl),
   by decide,
   (parseTemperature_spec 47 6000).2.2 (by decide) (by decide) (by decide)
     (by decide)⟩

/-- C2: `parseWeight` returns valid=false for every non-weight model
regardless of raw, valid=false for raws 0x7FFF, 0x8005, 0xFFFF on
weight-capable models, and otherwise `(raw - 32767)/100` with valid=true,
which is negative whenever raw < 32767; it is total. -/
theorem parseWeight_spec (model raw : Nat) :
    (weightModels model = false → parseWeight model raw = (0, false)) ∧
    (weightModels model = true →
       (raw = 0x7FFF ∨ raw = 0x8005 ∨ raw = 0xFFFF) →
       (parseWeight model raw).2 = false) ∧
    (weightModels model = true → raw ≠ 0x7FFF → raw ≠ 0x8005 →
       raw ≠ 0xFFFF →
       parseWeight model raw = (((raw : ℚ) - 32767) / 100, true)) ∧
    (weightModels model = true → raw ≠ 0x7FFF → raw ≠ 0x8005 →
       raw ≠ 0xFFFF → raw < 32767 → (parseWeight model raw).1 < 0) := by
  refine ⟨?_, ?_, ?_, ?_⟩
  · intro h; simp [parseWeight, h]
  · intro h hs
    rcases hs with hs | hs | hs <;> simp [parseWeight, weightSentinels, h, hs]
  · intro h h1 h2 h3
    simp [parseWeight, weightSentinels, h, h1, h2, h3]
  · intro h h1 h2 h3 hlt
    have hv : parseWeight model raw =
        (((raw : ℚ) - 32767) / 100, true) := by
      simp [parseWeight, weightSentinels, h, h1, h2, h3]
    rw [hv]
    have hc : (raw : ℚ) < 32767 := by exact_mod_cast hlt
    exact div_neg_of_neg_of_pos (by linarith) (by norm_num)

/-- Witness for C2 at concrete inputs (non-weight model 41; weight model
43 at a sentinel, at a normal raw, and at a raw below the zero offset). -/
theorem parseWeight_spec_witness :
    parseWeight 41 100 = (0, false) ∧
    (parseWeight 43 0x7FFF).2 = false ∧
    parseWeight 43 40000 = (((40000 : ℚ) - 32767) / 100, true) ∧
    (parseWeight 43 100).1 < 0 :=
  ⟨(parseWeight_spec 41 100).1 (by decide),
   (parseWeight_spec 43 0x7FFF).2.1 (by decide) (Or.inl rfl),
   (parseWeight_spec 43 40000).2.2.1 (by decide) (by decide) (by decide)
     (by decide),
   (parseWeight_spec 43 100).2.2.2 (by decide) (by decide) (by decide)
     (by decide) (by decide)⟩

/-- C4: first admission of an identity returns true and records the
counter; admission with the stored counter returns false and leaves the
tracker unchanged; admission with any other counter returns true and
overwrites the stored counter. -/
theorem isNew_spec (t : Tracker) (mac : String) (c : Nat) :
    (t.seen.lookup mac = none →
       (t.isNew mac c).1 = true ∧
       ((t.isNew mac c).2).seen.lookup mac = some c) ∧
    (t.seen.lookup mac = some c → t.isNew mac c = (false, t)) ∧
    (∀ last, t.seen.lookup mac = some last → last ≠ c →
       (t.isNew mac c).1 = true ∧
       ((t.isNew mac c).2).seen.lookup mac = some c) := by
  refine ⟨?_, ?_, ?_⟩
  · intro h
    simp [Tracker.isNew, h, List.lookup]
  · intro h
    simp [Tracker.isNew, h]
  · intro last h hne
    simp [Tracker.isNew, h, hne, List.lookup]

/-- Witness for C4 on a concrete tracker holding counter 5 for "AA":
same counter rejected with unchanged state, fresh identity accepted,
different counter accepted and recorded. -/
theorem isNew_spec_witness :
    Tracker.isNew ⟨[("AA", 5)], []⟩ "AA" 5 = (false, ⟨[("AA", 5)], []⟩) ∧
    (Tracker.isNew ⟨[("AA", 5)], []⟩ "BB" 7).1 = true ∧
    ((Tracker.isNew ⟨[("AA", 5)], []⟩ "BB" 7).2).seen.lookup "BB" =
      some 7 ∧
    (Tracker.isNew ⟨[("AA", 5)], []⟩ "AA" 4).1 = true ∧
    ((Tracker.isNew ⟨[("AA", 5)], []⟩ "AA" 4).2).seen.lookup "AA" =
      some 4 :=
  ⟨(isNew_spec ⟨[("AA", 5)], []⟩ "AA" 5).2.1 (by decide),
   ((isNew_spec ⟨[("AA", 5)], []⟩ "BB" 7).1 (by decide)).1,
   ((isNew_spec ⟨[("AA", 5)], []⟩ "BB" 7).1 (by decide)).2,
   ((isNew_spec ⟨[("AA", 5)], []⟩ "AA" 4).2.2 5 (by decide) (by decide)).1,
   ((isNew_spec ⟨[("AA", 5)], []⟩ "AA" 4).2.2 5 (by decide) (by decide)).2⟩

/-- `isNew` never touches the discovery state. -/
theorem isNew_firstSee (t : Tracker) (m : String) (c : Nat) :
    ((t.isNew m c).2).firstSee = t.firstSee := by
  unfold Tracker.isNew
  split
  · split_ifs <;> rfl
  · rfl

/-- In any trace started from tracker state `t`, the number of successful
`isFirstDiscovery` calls for `mac` is 0 if `mac` was already discovered,
else 1 if the trace queries `mac` at all, else 0. -/
theorem discTrueCount_eq (mac : String) (ops : List Op) :
    ∀ t : Tracker,
      discTrueCount mac t ops =
        if mac ∈ t.firstSee then 0
        else if mentionsDisc mac ops then 1 else 0 := by
  induction ops with
  | nil =>
    intro t
    simp [discTrueCount, mentionsDisc]
  | cons op ops ih =>
    intro t
    cases op with
    | isNewOp m c =>
      have hfs : ((stepOp t (.isNewOp m c)).2).firstSee = t.firstSee :=
        isNew_firstSee t m c
      have htail := ih (stepOp t (.isNewOp m c)).2
      rw [hfs] at htail
      simp [discTrueCount, isDiscOf, htail, mentionsDisc]
    | firstDisc m =>
      by_cases hm : m = mac
      · subst hm
        by_cases hmem : m ∈ t.firstSee
        · have hstep : stepOp t (.firstDisc m) = (false, t) := by
            simp [stepOp, Tracker.isFirstDiscovery, hmem]
          simp [discTrueCount, hstep, isDiscOf, ih t, hmem]
        · have hstep : stepOp t (.firstDisc m) =
              (true, ⟨t.seen, m :: t.firstSee⟩) := by
            simp [stepOp, Tracker.isFirstDiscovery, hmem]
          have htail := ih ⟨t.seen, m :: t.firstSee⟩
          simp only [List.mem_cons, true_or, if_true] at htail
          simp [discTrueCount, hstep, isDiscOf, htail, mentionsDisc,
            hmem]
      · have hfs : (mac ∈ ((stepOp t (.firstDisc m)).2).firstSee) =
            (mac ∈ t.firstSee) := by
          simp only [stepOp, Tracker.isFirstDiscovery]
          split_ifs with h
          · rfl
          · simp only [List.mem_cons]
            refine propext ⟨?_, Or.inr⟩
            rintro (rfl | h')
            · exact absurd rfl hm
            · exact h'
        have hdisc : isDiscOf mac (Op.firstDisc m) = false := by
          simp [isDiscOf, hm]
        have htail := ih (stepOp t (.firstDisc m)).2
        simp only [hfs] at htail
        simp [discTrueCount, hdisc, htail, mentionsDisc]

/-- C10: starting from a fresh tracker, `isFirstDiscovery` returns true
exactly once per distinct identity over any sequence of tracker calls
(true on the first query of that identity, false thereafter); its result
depends only on the discovery state, which `isNew` never modifies. -/
theorem isFirstDiscovery_spec (mac : String) (ops : List Op) :
    discTrueCount mac newTracker ops =
      (if mentionsDisc mac ops then 1 else 0) ∧
    (∀ s₁ s₂ f, (Tracker.isFirstDiscovery ⟨s₁, f⟩ mac).1 =
       (Tracker.isFirstDiscovery ⟨s₂, f⟩ mac).1) ∧
    (∀ t c, ((Tracker.isNew t mac c).2).firstSee = t.firstSee) := by
  refine ⟨?_, ?_, ?_⟩
  · have h := discTrueCount_eq mac ops newTracker
    simpa [newTracker] using h
  · intro s₁ s₂ f
    simp only [Tracker.isFirstDiscovery]
    split_ifs <;> rfl
  · intro t c
    exact isNew_firstSee t mac c

/-- C3: parsing fails with a payload-too-short error carrying the observed
length exactly when the payload has fewer than 15 bytes, and succeeds with
a Reading for every payload of length at least 15 (missing optional tails
are not errors). -/
theorem parseAdvertisement_length_spec (mac : String) (rssi : Int)
    (data : List Nat) :
    (data.length < 15 →
       parseAdvertisement mac rssi data =
         .error (.payloadTooShort data.length)) ∧
    (15 ≤ data.length →
       parseAdvertisement mac rssi data =
         .ok (parseBuild mac rssi data)) := by
  constructor
  · intro h
    simp [parseAdvertisement, h]
  · intro h
    simp [parseAdvertisement, Nat.not_lt.mpr h]

/-- Witness for C3: a 10-byte payload errors with length 10; a bare
15-byte payload parses. -/
theorem parseAdvertisement_length_spec_witness :
    parseAdvertisement "" 0 (List.replicate 10 0) =
      .error (.payloadTooShort 10) ∧
    parseAdvertisement "" 0 (List.replicate 15 0) =
      .ok (parseBuild "" 0 (List.replicate 15 0)) :=
  ⟨(parseAdvertisement_length_spec "" 0 (List.replicate 10 0)).1
     (by decide),
   (parseAdvertisement_length_spec "" 0 (List.replicate 15 0)).2
     (by decide)⟩

/-- C8: for every accepted payload the battery percentage is
`min(data[4], 100)`, hence at most 100, and any device-reported value of
100 or more is clamped to exactly 100. -/
theorem batteryPercent_spec (mac : String) (rssi : Int) (data : List Nat)
    (h : 15 ≤ data.length) :
    parseAdvertisement mac rssi data = .ok (parseBuild mac rssi data) ∧
    (parseBuild mac rssi data).batteryPercent = min (byteAt data 4) 100 ∧
    (parseBuild mac rssi data).batteryPercent ≤ 100 ∧
    (100 ≤ byteAt data 4 →
       (parseBuild mac rssi data).batteryPercent = 100) := by
  have hb := (parseBuild_fixed_fields mac rssi data).2.2.2.1
  refine ⟨by simp [parseAdvertisement, Nat.not_lt.mpr h], hb, ?_, ?_⟩
  · rw [hb]
    exact Nat.min_le_right _ _
  · intro h100
    rw [hb]
    exact Nat.min_eq_right h100

/-- Witness for C8: a payload reporting battery 150 is clamped to 100. -/
theorem batteryPercent_spec_witness :
    (15 : Nat) ≤
      ([42, 3, 1, 0, 150, 17, 0, 16, 22, 0, 0, 0, 0, 0, 64] :
        List Nat).length ∧
    (parseBuild "X" 0
        [42, 3, 1, 0, 150, 17, 0, 16, 22, 0, 0, 0, 0, 0, 64]
      ).batteryPercent = 100 :=
  ⟨by decide,
   (batteryPercent_spec "X" 0
       [42, 3, 1, 0, 150, 17, 0, 16, 22, 0, 0, 0, 0, 0, 64]
       (by decide)).2.2.2 (by decide)⟩

/-- C9 counterexample: the parser does not reformat the address into
colon-separated octets — an accepted lowercase address without colons is
merely uppercased, not canonical. -/
theorem mac_normalization_counterexample :
    (parseAdvertisement "aabbccddeeff" 0 (List.replicate 15 0)).toOption.map
      Reading.mac = some "AABBCCDDEEFF" ∧
    octetsU "AABBCCDDEEFF".data = false := by
  constructor
  · decide
  · decide

/-- C9 (amended): the Reading's address is the input with letters
uppercased (Go `strings.ToUpper`); the parser inserts no colons itself,
so the address is in canonical uppercase colon-separated octet form
whenever the input was already colon-separated octets in any casing. -/
theorem mac_normalization_spec (mac : String) (rssi : Int)
    (data : List Nat) (h : 15 ≤ data.length) :
    parseAdvertisement mac rssi data = .ok (parseBuild mac rssi data) ∧
    (parseBuild mac rssi data).mac = goToUpper mac ∧
    (octetsCI mac.data = true →
       octetsU ((parseBuild mac rssi data).mac).data = true) := by
  have hm := (parseBuild_fixed_fields mac rssi data).1
  refine ⟨by simp [parseAdvertisement, Nat.not_lt.mpr h], hm, ?_⟩
  intro hci
  rw [hm]
  exact octetsU_map _ hci

/-- Witness for C9 at a lowercase colon-separated address. -/
theorem mac_normalization_spec_witness :
    (15 : Nat) ≤ (List.replicate 15 0 : List Nat).length ∧
    octetsCI "aa:bb:cc:dd:ee:ff".data = true ∧
    (parseBuild "aa:bb:cc:dd:ee:ff" 0 (List.replicate 15 0)).mac =
      goToUpper "aa:bb:cc:dd:ee:ff" ∧
    octetsU
      ((parseBuild "aa:bb:cc:dd:ee:ff" 0 (List.replicate 15 0)).mac).data =
      true :=
  ⟨by decide, by decide,
   (mac_normalization_spec "aa:bb:cc:dd:ee:ff" 0 (List.replicate 15 0)
      (by decide)).2.1,
   (mac_normalization_spec "aa:bb:cc:dd:ee:ff" 0 (List.replicate 15 0)
      (by decide)).2.2 (by decide)⟩

/-- C5: every physical-unit value stored by the parser is a fixed point
of its rounding — Celsius and kg fields of 2-decimal rounding, Fahrenheit
fields of 1-decimal rounding — i.e. rounding happened at construction. -/
theorem rounding_spec (mac : String) (rssi : Int) (data : List Nat)
    (h : 15 ≤ data.length) :
    parseAdvertisement mac rssi data = .ok (parseBuild mac rssi data) ∧
    rounded (parseBuild mac rssi data) :=
  ⟨by simp [parseAdvertisement, Nat.not_lt.mpr h],
   rounded_parseBuild mac rssi data⟩

/-- Witness for C5 on a concrete 15-byte payload. -/
theorem rounding_spec_witness :
    (15 : Nat) ≤ (List.replicate 15 0 : List Nat).length ∧
    rounded (parseBuild "" 0 (List.replicate 15 0)) :=
  ⟨by decide, (rounding_spec "" 0 (List.replicate 15 0) (by decide)).2⟩

/-- Humidity fields of the post-humidity pipeline tail, for any reading
whose model byte is the payload's and whose humidity is still unset. -/
theorem humidity_tail_char (data : List Nat) (r : Reading)
    (h15 : 15 ≤ data.length) (hmb : r.modelByte = byteAt data 0)
    (hhum : r.hasHumidity = false) :
    ((noHumidityModels (byteAt data 0) = true ∨ 100 < byteAt data 14) →
       (withRealtimeWeight data (withExtended data
         (withHumidity data r))).hasHumidity = false) ∧
    (noHumidityModels (byteAt data 0) = false → byteAt data 14 ≤ 100 →
       (withRealtimeWeight data (withExtended data
          (withHumidity data r))).hasHumidity = true ∧
       (withRealtimeWeight data (withExtended data
          (withHumidity data r))).humidityPct = byteAt data 14) := by
  obtain ⟨b4, l4, r4, t4, b5, s5, h4⟩ :=
    withExtended_shape data (withHumidity data r)
  obtain ⟨w6, h6⟩ :=
    withRealtimeWeight_shape data (withExtended data (withHumidity data r))
  rw [h6, h4]
  have hc := withHumidity_char data r h15
  rw [hmb] at hc
  constructor
  · rintro (hnh | hgt)
    · rw [hc.1 hnh]
      exact hhum
    · by_cases hnh : noHumidityModels (byteAt data 0) = true
      · rw [hc.1 hnh]
        exact hhum
      · have hnh' : noHumidityModels (byteAt data 0) = false := by
          simpa using hnh
        rw [hc.2.2 hnh' hgt]
        exact hhum
  · intro hnh hle
    exact ⟨(hc.2.1 hnh hle).1, (hc.2.1 hnh hle).2⟩

/-- C6 counterexample: a humidity-capable model (42) with raw humidity
byte 150 yields `hasHumidity = false` — the raw byte is not reported
whenever it exceeds 100, contrary to the unconditional reading of the
claim. -/
theorem humidity_counterexample :
    (parseAdvertisement "X" 0
        [42, 3, 1, 0, 150, 17, 0, 16, 22, 0, 0, 0, 0, 0, 150]
      ).toOption.map Reading.hasHumidity = some false ∧
    noHumidityModels
      (byteAt [42, 3, 1, 0, 150, 17, 0, 16, 22, 0, 0, 0, 0, 0, 150] 0) =
      false ∧
    byteAt [42, 3, 1, 0, 150, 17, 0, 16, 22, 0, 0, 0, 0, 0, 150] 14 =
      150 := by
  refine ⟨by decide, by decide, by decide⟩

/-- C6 (amended): humidity presence is gated by model capability — absent
for the no-humidity models even when the raw byte is non-zero — and for
every other model the raw byte at index 14 is reported as the humidity
percentage exactly when it is at most 100. -/
theorem humidity_spec (mac : String) (rssi : Int) (data : List Nat)
    (h : 15 ≤ data.length) :
    parseAdvertisement mac rssi data = .ok (parseBuild mac rssi data) ∧
    (noHumidityModels (byteAt data 0) = true →
       (parseBuild mac rssi data).hasHumidity = false) ∧
    (noHumidityModels (byteAt data 0) = false → byteAt data 14 ≤ 100 →
       (parseBuild mac rssi data).hasHumidity = true ∧
       (parseBuild mac rssi data).humidityPct = byteAt data 14) ∧
    (noHumidityModels (byteAt data 0) = false → 100 < byteAt data 14 →
       (parseBuild mac rssi data).hasHumidity = false) := by
  obtain ⟨b1, c1, f1, h1⟩ := withRealtime_shape data (baseReading mac rssi data)
  obtain ⟨b2, l2, r2w, t2, h2⟩ :=
    withWeight_shape data (withRealtime data (baseReading mac rssi data))
  have hmb : (withWeight data (withRealtime data
      (baseReading mac rssi data))).modelByte = byteAt data 0 := by
    rw [h2, h1]
    rfl
  have hhum : (withWeight data (withRealtime data
      (baseReading mac rssi data))).hasHumidity = false := by
    rw [h2, h1]
    rfl
  have key := humidity_tail_char data
    (withWeight data (withRealtime data (baseReading mac rssi data)))
    h hmb hhum
  exact ⟨by simp [parseAdvertisement, Nat.not_lt.mpr h],
         fun hnh => key.1 (Or.inl hnh), key.2,
         fun hnh hgt => key.1 (Or.inr hgt)⟩

/-- Witness for C6: the spec's end-to-end example — a 21-byte payload for
humidity-bearing model 42 with humidity byte 64 (and battery byte 150)
reports 64 % humidity. -/
theorem humidity_spec_witness :
    (15 : Nat) ≤
      ([42, 3, 1, 0, 150, 17, 0, 16, 22, 0, 0, 0, 0, 0, 64,
        0, 0, 0, 0, 0, 0] : List Nat).length ∧
    noHumidityModels
      (byteAt [42, 3, 1, 0, 150, 17, 0, 16, 22, 0, 0, 0, 0, 0, 64,
        0, 0, 0, 0, 0, 0] 0) = false ∧
    byteAt [42, 3, 1, 0, 150, 17, 0, 16, 22, 0, 0, 0, 0, 0, 64,
        0, 0, 0, 0, 0, 0] 14 ≤ 100 ∧
    (parseBuild "X" 0
        [42, 3, 1, 0, 150, 17, 0, 16, 22, 0, 0, 0, 0, 0, 64,
         0, 0, 0, 0, 0, 0]).hasHumidity = true ∧
    (parseBuild "X" 0
        [42, 3, 1, 0, 150, 17, 0, 16, 22, 0, 0, 0, 0, 0, 64,
         0, 0, 0, 0, 0, 0]).humidityPct = 64 :=
  ⟨by decide, by decide, by decide,
   ((humidity_spec "X" 0 _ (by decide)).2.2.1 (by decide) (by decide)).1,
   ((humidity_spec "X" 0 _ (by decide)).2.2.1 (by decide) (by decide)).2⟩

/-- Weight-field structure of the pipeline tail, for any reading whose
model byte is the payload's and whose weight fields are still unset. -/
theorem weight_tail_char (data : List Nat) (r : Reading)
    (hmb : r.modelByte = byteAt data 0) (hhw : r.hasWeight = false)
    (hl : r.weightLeft = 0) (hr : r.weightRight = 0)
    (ht : r.weightTotal = 0) (h4c : r.has4Cell = false)
    (hl2 : r.weightLeft2 = 0) (hr2 : r.weightRight2 = 0)
    (hrw : r.realtimeWeight = 0) :
    (weightModels (byteAt data 0) = false →
       (parseTail data r).hasWeight = false ∧
       (parseTail data r).has4Cell = false ∧
       (parseTail data r).weightLeft = 0 ∧
       (parseTail data r).weightRight = 0 ∧
       (parseTail data r).weightTotal = 0 ∧
       (parseTail data r).weightLeft2 = 0 ∧
       (parseTail data r).weightRight2 = 0 ∧
       (parseTail data r).realtimeWeight = 0) ∧
    ((parseTail data r).hasWeight = true →
       weightModels (byteAt data 0) = true) ∧
    ((parseTail data r).has4Cell = true →
       fourCellWeightModels (byteAt data 0) = true) ∧
    ((parseTail data r).hasWeight = false →
       (parseTail data r).weightLeft = 0 ∧
       (parseTail data r).weightRight = 0) ∧
    ((parseTail data r).has4Cell = false →
       (parseTail data r).weightLeft2 = 0 ∧
       (parseTail data r).weightRight2 = 0) := by
  obtain ⟨pRW1, pRW2, pRW3, pRW4, pRW5, pRW6⟩ :=
    withRealtimeWeight_preserves data
      (withExtended data (withHumidity data (withWeight data r)))
  obtain ⟨pEx1, pEx2, pEx3⟩ :=
    withExtended_preserves data (withHumidity data (withWeight data r))
  obtain ⟨pHu1, pHu2, pHu3, pHu4, pHu5, pHu6, pHu7⟩ :=
    withHumidity_preserves data (withWeight data r)
  obtain ⟨pWw1, pWw2, pWw3, pWw4⟩ := withWeight_preserves data r
  simp only [parseTail]
  refine ⟨?_, ?_, ?_, ?_, ?_⟩
  · intro hw
    have hwr : weightModels r.modelByte = false := by rw [hmb]; exact hw
    have h4fr : fourCellWeightModels r.modelByte = false := by
      by_cases hx : fourCellWeightModels r.modelByte = true
      · rw [fourCell_imp_weight _ hx] at hwr
        exact Bool.noConfusion hwr
      · simpa using hx
    obtain ⟨b, p, bs, ss, hEq⟩ := tail_id_nonweight data r hwr h4fr
    rw [withWeight_id data r hwr, hEq]
    exact ⟨hhw, h4c, hl, hr, ht, hl2, hr2, hrw⟩
  · intro hT
    rw [pRW1, pEx1, pHu1] at hT
    rcases withWeight_cases data r with hid | ⟨-, hm⟩
    · rw [hid, hhw] at hT
      exact Bool.noConfusion hT
    · rw [← hmb]
      exact hm
  · intro hT
    rw [pRW2] at hT
    rcases withExtended_cases data (withHumidity data (withWeight data r))
      with ⟨hpre, -, -⟩ | ⟨-, h4m⟩
    · rw [hpre, pHu2, pWw2, h4c] at hT
      exact Bool.noConfusion hT
    · rw [pHu7, pWw1, hmb] at h4m
      exact h4m
  · intro hF
    rw [pRW1, pEx1, pHu1] at hF
    rcases withWeight_cases data r with hid | ⟨hT, -⟩
    · constructor
      · rw [pRW3, pEx2, pHu3, hid, hl]
      · rw [pRW4, pEx3, pHu4, hid, hr]
    · rw [hT] at hF
      exact Bool.noConfusion hF
  · intro hF
    rw [pRW2] at hF
    rcases withExtended_cases data (withHumidity data (withWeight data r))
      with ⟨-, hpre2, hpre3⟩ | ⟨hset, -⟩
    · constructor
      · rw [pRW5, hpre2, pHu5, pWw3, hl2]
      · rw [pRW6, hpre3, pHu6, pWw4, hr2]
    · rw [hset] at hF
      exact Bool.noConfusion hF

/-- C7: weight fields appear as a group — left/right gated together by
`hasWeight`, left2/right2 together by `has4Cell` — and only for
weight-capable models; a model without the weight capability never has any
weight field set (including the realtime total weight), for every
payload. -/
theorem weight_group_spec (mac : String) (rssi : Int) (data : List Nat)
    (h : 15 ≤ data.length) :
    parseAdvertisement mac rssi data = .ok (parseBuild mac rssi data) ∧
    (weightModels (byteAt data 0) = false →
       (parseBuild mac rssi data).hasWeight = false ∧
       (parseBuild mac rssi data).has4Cell = false ∧
       (parseBuild mac rssi data).weightLeft = 0 ∧
       (parseBuild mac rssi data).weightRight = 0 ∧
       (parseBuild mac rssi data).weightTotal = 0 ∧
       (parseBuild mac rssi data).weightLeft2 = 0 ∧
       (parseBuild mac rssi data).weightRight2 = 0 ∧
       (parseBuild mac rssi data).realtimeWeight = 0) ∧
    ((parseBuild mac rssi data).hasWeight = true →
       weightModels (byteAt data 0) = true) ∧
    ((parseBuild mac rssi data).has4Cell = true →
       fourCellWeightModels (byteAt data 0) = true) ∧
    ((parseBuild mac rssi data).hasWeight = false →
       (parseBuild mac rssi data).weightLeft = 0 ∧
       (parseBuild mac rssi data).weightRight = 0) ∧
    ((parseBuild mac rssi data).has4Cell = false →
       (parseBuild mac rssi data).weightLeft2 = 0 ∧
       (parseBuild mac rssi data).weightRight2 = 0) := by
  obtain ⟨b1, c1, f1, h1⟩ :=
    withRealtime_shape data (baseReading mac rssi data)
  have key := weight_tail_char data
    (withRealtime data (baseReading mac rssi data))
    (by rw [h1]; rfl) (by rw [h1]; rfl) (by rw [h1]; rfl)
    (by rw [h1]; rfl) (by rw [h1]; rfl) (by rw [h1]; rfl)
    (by rw [h1]; rfl) (by rw [h1]; rfl) (by rw [h1]; rfl)
  exact ⟨by simp [parseAdvertisement, Nat.not_lt.mpr h], key.1, key.2.1,
         key.2.2.1, key.2.2.2.1, key.2.2.2.2⟩

/-- Witness for C7: a 21-byte payload for the non-weight model 47 with
non-zero weight bytes yields no weight fields. -/
theorem weight_group_spec_witness :
    (15 : Nat) ≤
      ([47, 3, 1, 10, 90, 17, 0, 16, 22, 0, 100, 100, 100, 100, 0,
        1, 2, 3, 4, 5, 6] : List Nat).length ∧
    weightModels
      (byteAt [47, 3, 1, 10, 90, 17, 0, 16, 22, 0, 100, 100, 100, 100, 0,
        1, 2, 3, 4, 5, 6] 0) = false ∧
    (parseBuild "X" 0
        [47, 3, 1, 10, 90, 17, 0, 16, 22, 0, 100, 100, 100, 100, 0,
         1, 2, 3, 4, 5, 6]).hasWeight = false ∧
    (parseBuild "X" 0
        [47, 3, 1, 10, 90, 17, 0, 16, 22, 0, 100, 100, 100, 100, 0,
         1, 2, 3, 4, 5, 6]).has4Cell = false ∧
    (parseBuild "X" 0
        [47, 3, 1, 10, 90, 17, 0, 16, 22, 0, 100, 100, 100, 100, 0,
         1, 2, 3, 4, 5, 6]).weightLeft = 0 ∧
    (parseBuild "X" 0
        [47, 3, 1, 10, 90, 17, 0, 16, 22, 0, 100, 100, 100, 100, 0,
         1, 2, 3, 4, 5, 6]).realtimeWeight = 0 :=
  ⟨by decide, by decide,
   ((weight_group_spec "X" 0 _ (by decide)).2.1 (by decide)).1,
   ((weight_group_spec "X" 0 _ (by decide)).2.1 (by decide)).2.1,
   ((weight_group_spec "X" 0 _ (by decide)).2.1 (by decide)).2.2.1,
   ((weight_group_spec "X" 0 _ (by decide)).2.1 (by decide)).2.2.2.2.2.2.2⟩

end BM
